import Mathlib

/-!
Verification of the protocol core of the supabase realtime-js client.

The definitions below are a shallow embedding of the TypeScript sources:

  * src/lib/types.ts      (Serializer: JSON and binary codec)
  * src/lib/push.ts       (Push)
  * src/lib/channel-config.ts (MAX_PUSH_BUFFER_SIZE)
  * src/RealtimeChannel.ts (channel state machine, trigger, push buffer,
                            postgres_changes validation, subscribe)
  * RealtimeClient        (_makeRef, _sendHeartbeat, _remove)

Modelling conventions:
  * JavaScript strings appearing in the binary codec are modelled as lists
    of natural numbers, their UTF-16 code units; charCodeAt(0) of a unit is
    the unit itself, and DataView.setUint8 stores it modulo 256.
    TextDecoder / the byte view are the identity on this representation.
  * ArrayBuffer values are lists of bytes (List Nat).
  * JavaScript null and undefined on optional string fields are modelled by
    Option.none; truthiness of a string (used by the source as a presence
    test) additionally treats the empty string as absent.
  * Out-of-range DataView.getUint8 raises a RangeError; ArrayBuffer.slice
    clamps its bounds.  Destructuring a non-iterable raises a TypeError.
  * Record<string, string> (GenericObject) is a list of key/value pairs.
-/

deriving instance DecidableEq for Except

/-- JavaScript runtime errors that the decoder can raise. -/
inductive JsErr where
  | rangeError
  | typeError
deriving DecidableEq

/-- ArrayBuffer.slice: clamps both bounds to the buffer, empty when the
interval is degenerate. -/
def jsSlice (buf : List Nat) (start stop : Nat) : List Nat :=
  (buf.drop start).take (stop - start)

/-- DataView.getUint8: reads one byte, raising RangeError out of range. -/
def getUint8 (buf : List Nat) (i : Nat) : Except JsErr Nat :=
  if h : i < buf.length then .ok buf[i] else .error .rangeError

/-- JSON values as produced by JSON.parse, together with the JavaScript
undefined value that array destructuring introduces for missing elements. -/
inductive JsonValue where
  | null
  | undef
  | bool (b : Bool)
  | num (n : Int)
  | str (s : String)
  | arr (elems : List JsonValue)
  | obj (fields : List (String × JsonValue))

/-- Coerces the optional join_ref / ref of a frame to its JSON array slot;
both a null ref and an undefined join_ref stringify to null inside an array. -/
def jsonOfOpt : Option String → JsonValue
  | none => .null
  | some s => .str s

/-- Payload of an outbound frame: either a structured value or a raw binary
buffer; encode dispatches on which one it is. -/
inductive MsgPayload where
  | json (j : JsonValue)
  | bin (bytes : List Nat)

/-- An outbound frame as handed to Serializer.encode. -/
structure Msg where
  join_ref : Option String
  ref : Option String
  topic : String
  event : String
  payload : MsgPayload

/-- Result of the text decoder: the five destructured JSON values. -/
structure DecodedText where
  join_ref : JsonValue
  ref : JsonValue
  topic : JsonValue
  event : JsonValue
  payload : JsonValue

/-- The evident injection of a JSON-payload frame into the decoder's result
type. -/
def msgToDecoded (jr r : Option String) (topic event : String) (p : JsonValue) :
    DecodedText :=
  { join_ref := jsonOfOpt jr
    ref := jsonOfOpt r
    topic := .str topic
    event := .str event
    payload := p }

namespace Serializer

def HEADER_LENGTH : Nat := 1

def META_LENGTH : Nat := 4

def KINDS_push : Nat := 0

def KINDS_reply : Nat := 1

def KINDS_broadcast : Nat := 2

/-- Serializer.encode, JSON branch: the positional 5-array.  The wire text is
JSON.stringify of this value; we model the wire at the JSON-value level. -/
def encodeText (jr r : Option String) (topic event : String) (p : JsonValue) :
    JsonValue :=
  .arr [jsonOfOpt jr, jsonOfOpt r, .str topic, .str event, p]

/-- JavaScript iteration as used by array destructuring: arrays yield their
elements, strings yield their characters, anything else raises a TypeError. -/
def jsIterate : JsonValue → Except JsErr (List JsonValue)
  | .arr xs => .ok xs
  | .str s => .ok (s.toList.map fun c => .str c.toString)
  | _ => .error .typeError

/-- Serializer.decode, text branch: destructures the parsed JSON into the
five fields, missing elements becoming undefined. -/
def decodeText (j : JsonValue) : Except JsErr DecodedText := do
  let xs ← jsIterate j
  .ok { join_ref := xs.getD 0 .undef
        ref := xs.getD 1 .undef
        topic := xs.getD 2 .undef
        event := xs.getD 3 .undef
        payload := xs.getD 4 .undef }

/-- Serializer._binaryEncode: kind byte 0 (push), then the four length bytes
join_ref, ref, topic, event, then the string bytes and the payload.
setUint8 stores every value modulo 256. -/
def binaryEncode (join_ref ref topic event payload : List Nat) : List Nat :=
  [KINDS_push % 256, join_ref.length % 256, ref.length % 256,
   topic.length % 256, event.length % 256]
  ++ join_ref.map (· % 256) ++ ref.map (· % 256)
  ++ topic.map (· % 256) ++ event.map (· % 256) ++ payload

/-- Event field of a decoded binary frame: reply frames get the literal
phx_reply event, the others carry the decoded bytes. -/
inductive BinEvent where
  | raw (bytes : List Nat)
  | phxReply
deriving DecidableEq

/-- Payload of a decoded binary frame: reply frames wrap the status bytes and
the remaining bytes, the others carry the remaining bytes directly. -/
inductive BinPayload where
  | raw (bytes : List Nat)
  | reply (status : List Nat) (response : List Nat)
deriving DecidableEq

/-- A decoded binary frame. -/
structure BinMsg where
  join_ref : Option (List Nat)
  ref : Option (List Nat)
  topic : List Nat
  event : BinEvent
  payload : BinPayload
deriving DecidableEq

/-- Serializer._decodePush: reads three length bytes (pushes have no ref on
this layout) and slices join_ref, topic, event, payload from offset 4. -/
def decodePush (buf : List Nat) : Except JsErr BinMsg := do
  let joinRefSize ← getUint8 buf 1
  let topicSize ← getUint8 buf 2
  let eventSize ← getUint8 buf 3
  let offset0 := HEADER_LENGTH + META_LENGTH - 1
  let joinRef := jsSlice buf offset0 (offset0 + joinRefSize)
  let offset1 := offset0 + joinRefSize
  let topic := jsSlice buf offset1 (offset1 + topicSize)
  let offset2 := offset1 + topicSize
  let event := jsSlice buf offset2 (offset2 + eventSize)
  let offset3 := offset2 + eventSize
  let data := jsSlice buf offset3 buf.length
  .ok { join_ref := some joinRef
        ref := none
        topic := topic
        event := .raw event
        payload := .raw data }

/-- Serializer._decodeReply: four length bytes, slices from offset 5; the
event slot carries the reply status and the event becomes phx_reply. -/
def decodeReply (buf : List Nat) : Except JsErr BinMsg := do
  let joinRefSize ← getUint8 buf 1
  let refSize ← getUint8 buf 2
  let topicSize ← getUint8 buf 3
  let eventSize ← getUint8 buf 4
  let offset0 := HEADER_LENGTH + META_LENGTH
  let joinRef := jsSlice buf offset0 (offset0 + joinRefSize)
  let offset1 := offset0 + joinRefSize
  let ref := jsSlice buf offset1 (offset1 + refSize)
  let offset2 := offset1 + refSize
  let topic := jsSlice buf offset2 (offset2 + topicSize)
  let offset3 := offset2 + topicSize
  let event := jsSlice buf offset3 (offset3 + eventSize)
  let offset4 := offset3 + eventSize
  let data := jsSlice buf offset4 buf.length
  .ok { join_ref := some joinRef
        ref := some ref
        topic := topic
        event := .phxReply
        payload := .reply event data }

/-- Serializer._decodeBroadcast: two length bytes, slices from offset 3; no
join_ref and no ref. -/
def decodeBroadcast (buf : List Nat) : Except JsErr BinMsg := do
  let topicSize ← getUint8 buf 1
  let eventSize ← getUint8 buf 2
  let offset0 := HEADER_LENGTH + 2
  let topic := jsSlice buf offset0 (offset0 + topicSize)
  let offset1 := offset0 + topicSize
  let event := jsSlice buf offset1 (offset1 + eventSize)
  let offset2 := offset1 + eventSize
  let data := jsSlice buf offset2 buf.length
  .ok { join_ref := none
        ref := none
        topic := topic
        event := .raw event
        payload := .raw data }

/-- Serializer._binaryDecode: dispatches on the kind byte; an unknown kind
falls through the switch and the function returns undefined (modelled as
none), without raising any error. -/
def binaryDecode (buf : List Nat) : Except JsErr (Option BinMsg) := do
  let kind ← getUint8 buf 0
  if kind = KINDS_push then do
    let m ← decodePush buf
    .ok (some m)
  else if kind = KINDS_reply then do
    let m ← decodeReply buf
    .ok (some m)
  else if kind = KINDS_broadcast then do
    let m ← decodeBroadcast buf
    .ok (some m)
  else
    .ok none

end Serializer

/-! ## Constants (src/lib/constants.ts) -/

def WS_CLOSE_NORMAL : Nat := 1000

/-- Channel states, from CHANNEL_STATES. -/
inductive ChannelState where
  | closed
  | errored
  | joined
  | joining
  | leaving
deriving DecidableEq

/-- MAX_PUSH_BUFFER_SIZE, from src/lib/channel-config.ts. -/
def MAX_PUSH_BUFFER_SIZE : Nat := 100

/-! ## Push (src/lib/push.ts) -/

/-- Record<string, string>, the GenericObject payload type. -/
abbrev GenericObject := List (String × String)

/-- A frame handed to RealtimeClient.push. -/
structure Frame where
  topic : String
  event : String
  payload : GenericObject
  ref : Option String
  join_ref : Option String
deriving DecidableEq

/-- The recorded server response of a Push. -/
structure RecResp where
  status : String
  response : GenericObject
deriving DecidableEq

/-- The mutable state of a Push.  Callbacks are identified by tags; the
timeout timer is modelled by whether it is armed; the reply binding that
startTimeout registers on the channel is recorded through refEvent. -/
structure Push where
  event : String
  payload : GenericObject
  timeout : Nat
  receivedResp : Option RecResp
  timeoutTimer : Bool
  recHooks : List (String × Nat)
  sent : Bool
  ref : Option String
  refEvent : Option String
deriving DecidableEq

/-- RealtimeChannel._replyEventName. -/
def replyEventName (ref : String) : String := "chan_reply_" ++ ref

namespace Push

/-- Push._hasReceived: a response has been recorded and its status matches. -/
def hasReceived (p : Push) (status : String) : Bool :=
  match p.receivedResp with
  | some r => r.status == status
  | none => false

/-- Push.startTimeout: cancels any armed timer, takes a fresh ref from the
client, derives the reply event name, registers the single-shot reply
binding on the channel (recorded by the caller) and arms the timer. -/
def startTimeout (p : Push) (freshRef : String) : Push :=
  { p with
    ref := some freshRef
    refEvent := some (replyEventName freshRef)
    timeoutTimer := true }

/-- Effects of one Push.send call: the updated push, whether a fresh ref was
taken from the client, the reply event registered on the channel, and the
frame published through the client. -/
structure SendResult where
  push : Push
  refTaken : Bool
  registered : Option String
  frame : Option Frame
deriving DecidableEq

/-- Push.send: returns immediately when a timeout status has already been
recorded; otherwise starts the timeout, marks the push sent and publishes
the frame through the client. -/
def send (p : Push) (freshRef : String) (topic : String) (joinRef : Option String) :
    SendResult :=
  if p.hasReceived "timeout" then
    { push := p, refTaken := false, registered := none, frame := none }
  else
    let p1 := p.startTimeout freshRef
    let p2 := { p1 with sent := true }
    { push := p2
      refTaken := true
      registered := p1.refEvent
      frame := some { topic := topic
                      event := p.event
                      payload := p.payload
                      ref := p2.ref
                      join_ref := joinRef } }

/-- Push.reset: removes the reply binding and clears ref, refEvent,
receivedResp and sent. -/
def reset (p : Push) : Push :=
  { p with ref := none, refEvent := none, receivedResp := none, sent := false }

end Push

/-! ## RealtimeClient (part_010) -/

/-- JavaScript truthiness of an optional string: null, undefined and the
empty string are falsy. -/
def strTruthy : Option String → Bool
  | none => false
  | some s => !s.isEmpty

/-- Increment of an integer-valued IEEE-754 double on the range reachable by
the ref counter: exact below 2 ^ 53, and at 2 ^ 53 adding one rounds back to
the same value. -/
def jsAddOne (n : Nat) : Nat :=
  if n < 2 ^ 53 then n + 1 else n

namespace RealtimeClient

/-- RealtimeClient._makeRef: increments the counter, wrapping to 0 at the
point where adding one no longer changes the value; returns the new counter
and its decimal string. -/
def makeRef (ref : Nat) : Nat × String :=
  let newRef := jsAddOne ref
  if newRef = ref then (0, toString (0 : Nat))
  else (newRef, toString newRef)

/-- The client state that the heartbeat logic reads and writes. -/
structure HeartbeatState where
  connected : Bool
  pendingHeartbeatRef : Option String
  ref : Nat
deriving DecidableEq

/-- Effects of one heartbeat tick: the updated client state, the close call
issued on the socket (code and reason), and the heartbeat frame pushed. -/
structure HeartbeatResult where
  client : HeartbeatState
  closeCall : Option (Nat × String)
  pushed : Option Frame
deriving DecidableEq

/-- RealtimeClient._sendHeartbeat: a no-op while disconnected; if a
heartbeat is still pending it clears the ref and closes the socket;
otherwise it takes a fresh ref, records it as pending and pushes the
heartbeat frame on the phoenix topic. -/
def sendHeartbeat (c : HeartbeatState) : HeartbeatResult :=
  if !c.connected then
    { client := c, closeCall := none, pushed := none }
  else if strTruthy c.pendingHeartbeatRef then
    { client := { c with pendingHeartbeatRef := none }
      closeCall := some (WS_CLOSE_NORMAL, "hearbeat timeout")
      pushed := none }
  else
    let r := makeRef c.ref
    { client := { c with ref := r.1, pendingHeartbeatRef := some r.2 }
      closeCall := none
      pushed := some { topic := "phoenix"
                       event := "heartbeat"
                       payload := []
                       ref := some r.2
                       join_ref := none } }

end RealtimeClient

/-! ## RealtimeChannel (src/RealtimeChannel.ts) -/

/-- toLocaleLowerCase as the source uses it on ASCII event names, defined
by mapping the character list so that it evaluates by kernel reduction. -/
def jsToLower (s : String) : String :=
  String.mk (s.data.map Char.toLower)

/-- The filter object of a binding; destructured fields that the source
compares may each be undefined. -/
structure BindingFilter where
  event : Option String
  schema : Option String
  table : Option String
  filter : Option String
deriving DecidableEq

/-- Identifies what a binding's callback does when fired: a user callback
(no channel-state effect), or one of the two hooks the constructor
registers, the phx_close hook and the phx_error hook. -/
inductive HookKind where
  | user (tag : Nat)
  | onCloseHook
  | onErrorHook
deriving DecidableEq

/-- One entry of the channel's binding table.  The id field models the
presence of the id key stamped by _validatePostgresChanges (none when the
key is absent). -/
structure Binding where
  type : String
  filter : BindingFilter
  callback : HookKind
  id : Option String
deriving DecidableEq

/-- The channel's binding map, keyed by lowercased event type, each key
holding its bindings in registration order. -/
abbrev Bindings := List (String × List Binding)

/-- Lookup of bindings[key]. -/
def bindingsGet (bs : Bindings) (key : String) : Option (List Binding) :=
  (bs.find? (fun e => e.1 == key)).map (fun e => e.2)

/-- Assignment bindings[key] = value (replacing the key's list, creating
the key when absent). -/
def bindingsSet (bs : Bindings) (key : String) (v : List Binding) : Bindings :=
  match bs with
  | [] => [(key, v)]
  | e :: rest =>
      if e.1 == key then (key, v) :: rest
      else e :: bindingsSet rest key v

/-- RealtimeChannel._on: appends the binding to its type's list, creating
the key when absent. -/
def bindingsAdd (bs : Bindings) (b : Binding) : Bindings :=
  match bindingsGet bs b.type with
  | some l => bindingsSet bs b.type (l ++ [b])
  | none => bs ++ [(b.type, [b])]

/-- The channel fields that the verified operations read and write. -/
structure Channel where
  state : ChannelState
  joinedOnce : Bool
  bindings : Bindings
  joinPush : Push
  pushBuffer : List Push
deriving DecidableEq

/-- The payload fields of an inbound message that the dispatch logic
inspects: ids and data.type of a postgres_changes envelope, and the event
of a broadcast / presence / system payload. -/
structure TriggerPayload where
  ids : Option (List String)
  dataType : Option String
  event : Option String
deriving DecidableEq

namespace Channel

/-- RealtimeChannel._joinRef: the ref of the join push. -/
def joinRef (ch : Channel) : Option String := ch.joinPush.ref

/-- The channel lifecycle events of _trigger. -/
def channelEvents : List String := ["phx_close", "phx_error", "phx_leave", "phx_join"]

/-- RealtimeChannel._shouldTriggerBinding: non-realtime events match by
type only; postgres_changes bindings carrying an id match when the payload
ids contain it and the filter event matches data.type or is the wildcard;
the remaining bindings match on the payload event or the wildcard. -/
def shouldTriggerBinding (b : Binding) (typeLower : String)
    (payload : Option TriggerPayload) : Bool :=
  if !(["broadcast", "presence", "postgres_changes"].contains typeLower) then
    jsToLower b.type == typeLower
  else
    match b.id with
    | some bindId =>
        !bindId.isEmpty
          && (match payload with
              | some p => (p.ids.getD []).contains bindId
              | none => false)
          && (match b.filter.event.map jsToLower with
              | some e =>
                  e == "*"
                    || some e
                        == (payload.bind (fun p => p.dataType)).map jsToLower
              | none => false)
    | none =>
        match b.filter.event.map jsToLower with
        | some e =>
            e == "*"
              || some e == (payload.bind (fun p => p.event)).map jsToLower
        | none => false

/-- Effect of a fired callback on the channel.  The phx_close hook resets
the rejoin timer, moves the state to closed and removes the channel from the
client; the phx_error hook runs _handleChannelError, which is a no-op while
leaving or closed and otherwise moves the state to errored and schedules the
rejoin timer.  User callbacks do not touch the channel state. -/
def applyHook (ch : Channel) (h : HookKind) : Channel :=
  match h with
  | .onCloseHook => { ch with state := .closed }
  | .onErrorHook =>
      if ch.state = .leaving ∨ ch.state = .closed then ch
      else { ch with state := .errored }
  | .user _ => ch

/-- Result of one _trigger call: the updated channel and the callbacks that
fired, each with the payload it received. -/
structure TriggerResult where
  channel : Channel
  fired : List (HookKind × Option TriggerPayload)
deriving DecidableEq

/-- RealtimeChannel._trigger: drops stale lifecycle messages whose ref does
not match the current join ref; dispatches insert / update / delete to the
postgres_changes bindings filtered on the binding event; otherwise fires the
bindings of the lowercased type that _shouldTriggerBinding accepts.  The
default _onMessage hook returns the payload unchanged.  The payload
enrichment for postgres_changes rows (_prepareFinalPayload) rearranges data
the dispatch decisions never read and is not tracked here. -/
def trigger (ch : Channel) (type : String) (payload : Option TriggerPayload)
    (ref : Option String) : TriggerResult :=
  let typeLower := jsToLower type
  if strTruthy ref && channelEvents.contains typeLower && !(ref == ch.joinRef) then
    { channel := ch, fired := [] }
  else if ["insert", "update", "delete"].contains typeLower then
    let binds := (bindingsGet ch.bindings "postgres_changes").getD []
    let fired := binds.filter (fun b =>
      match b.filter.event.map jsToLower with
      | some e => e == "*" || e == typeLower
      | none => false)
    { channel := ch, fired := fired.map (fun b => (b.callback, payload)) }
  else
    match bindingsGet ch.bindings typeLower with
    | none => { channel := ch, fired := [] }
    | some binds =>
        let fired := binds.filter (fun b => shouldTriggerBinding b typeLower payload)
        { channel := fired.foldl (fun c b => applyHook c b.callback) ch
          fired := fired.map (fun b => (b.callback, payload)) }

/-- Result of _addToPushBuffer: the new buffer, the push that was destroyed
(when the buffer was at capacity) and whether the eviction was logged. -/
structure AddResult where
  buffer : List Push
  destroyed : Option Push
  logged : Bool
deriving DecidableEq

/-- RealtimeChannel._addToPushBuffer: at capacity the oldest push is shifted
off and destroyed and the eviction logged; the new push is appended. -/
def addToPushBuffer (buf : List Push) (p : Push) : AddResult :=
  if buf.length ≥ MAX_PUSH_BUFFER_SIZE then
    { buffer := buf.tail ++ [p], destroyed := buf.head?, logged := true }
  else
    { buffer := buf ++ [p], destroyed := none, logged := false }

/-- One entry of the server's postgres_changes list in an ok join reply. -/
structure PgServerChange where
  id : String
  event : Option String
  schema : Option String
  table : Option String
  filter : Option String
deriving DecidableEq

/-- RealtimeChannel._isMatchingPostgresBinding for a present server entry:
the four destructured filter fields must agree (undefined agreeing with
undefined). -/
def isMatchingPresent (b : Binding) (sc : PgServerChange) : Bool :=
  sc.event == b.filter.event
    && sc.schema == b.filter.schema
    && sc.table == b.filter.table
    && sc.filter == b.filter.filter

/-- RealtimeChannel._isMatchingPostgresBinding: a missing server entry never
matches. -/
def isMatching (b : Binding) (sc : Option PgServerChange) : Bool :=
  match sc with
  | none => false
  | some sc => isMatchingPresent b sc

/-- The error message _validatePostgresChanges throws on a mismatch. -/
def mismatchMsg : String :=
  "mismatch between server and client bindings for postgres changes"

/-- Body of the map inside _validatePostgresChanges: walks the client
bindings with the running index, stamping each with the id of the matching
server entry and throwing on the first mismatch. -/
def validateAux : List Binding → List PgServerChange → Nat →
    Except String (List Binding)
  | [], _, _ => .ok []
  | b :: bs, scs, i =>
      match scs.get? i with
      | some sc =>
          if isMatchingPresent b sc then
            (validateAux bs scs (i + 1)).map
              (fun rest => { b with id := some sc.id } :: rest)
          else .error mismatchMsg
      | none => .error mismatchMsg

/-- RealtimeChannel._validatePostgresChanges: an empty or absent client
binding list validates to the empty list; otherwise the parallel walk. -/
def validatePostgresChanges (ch : Channel) (scs : List PgServerChange) :
    Except String (List Binding) :=
  match bindingsGet ch.bindings "postgres_changes" with
  | none => .ok []
  | some [] => .ok []
  | some cbs => validateAux cbs scs 0

/-- The user-visible subscribe callback statuses. -/
inductive SubscribeStatus where
  | SUBSCRIBED
  | TIMED_OUT
  | CLOSED
  | CHANNEL_ERROR
deriving DecidableEq

/-- Result of the ok join-reply handler: the updated channel, the status
and error delivered to the subscribe callback, and whether unsubscribe was
initiated (the leave frame of _handleSubscriptionError). -/
structure JoinOkResult where
  channel : Channel
  callback : Option (SubscribeStatus × Option String)
  unsubscribed : Bool
deriving DecidableEq

/-- The ok branch of the join-reply handler registered by subscribe: with no
postgres_changes in the reply the callback gets SUBSCRIBED; otherwise the
validated, id-stamped bindings replace bindings.postgres_changes and the
callback gets SUBSCRIBED, or on a validation error _handleSubscriptionError
initiates unsubscribe, moves the state to errored and delivers CHANNEL_ERROR
with the error.  (unsubscribe itself finalizes the state to closed only when
its promise settles, after this handler has returned.) -/
def handleJoinOk (ch : Channel) (pg : Option (List PgServerChange)) :
    JoinOkResult :=
  match pg with
  | none => { channel := ch, callback := some (.SUBSCRIBED, none), unsubscribed := false }
  | some scs =>
      match ch.validatePostgresChanges scs with
      | .ok vb =>
          { channel := { ch with bindings := bindingsSet ch.bindings "postgres_changes" vb }
            callback := some (.SUBSCRIBED, none)
            unsubscribed := false }
      | .error e =>
          { channel := { ch with state := .errored }
            callback := some (.CHANNEL_ERROR, some e)
            unsubscribed := true }

/-- RealtimeChannel.subscribe restricted to the channel's own fields.  While
the state is closed it registers the error and close hooks for the callback,
latches joinedOnce, and rejoins: the state becomes joining and the join push
is resent with a fresh ref (reset, then startTimeout and the sent mark).
In every other state the call leaves the channel untouched.  (socket.connect
and _leaveOpenTopic act on the client, not on this channel; the join payload
update carries no field of this model.) -/
def subscribe (ch : Channel) (cbTag : Nat) (freshRef : String) : Channel :=
  if ch.state = .closed then
    let errB : Binding :=
      { type := "phx_error", filter := { event := none, schema := none, table := none, filter := none }
        callback := .user cbTag, id := none }
    let closeB : Binding :=
      { type := "phx_close", filter := { event := none, schema := none, table := none, filter := none }
        callback := .user cbTag, id := none }
    let ch1 := { ch with bindings := bindingsAdd (bindingsAdd ch.bindings errB) closeB }
    let ch2 := { ch1 with joinedOnce := true }
    let jp := ch2.joinPush.reset
    let jp2 := { jp.startTimeout freshRef with sent := true }
    { ch2 with state := .joining, joinPush := jp2 }
  else ch

end Channel

/-- RealtimeClient._remove: erases from the channel set every channel whose
join ref equals the join ref of the channel being removed. -/
def RealtimeClient.remove (channels : List Channel) (target : Channel) :
    List Channel :=
  channels.filter (fun c => !(c.joinRef == target.joinRef))

/-! ## Helper definitions for the theorems -/

/-- Decimal digits of a number, most significant first, as characters; the
reference function that Nat.toDigitsCore computes. -/
def charsOf (n : Nat) : List Char :=
  if _h : n < 10 then [Nat.digitChar n]
  else charsOf (n / 10) ++ [Nat.digitChar (n % 10)]
decreasing_by
  exact Nat.div_lt_self (by omega) (by omega)

/-- Reads a decimal digit string back to the number it denotes. -/
def readNat (l : List Char) : Nat :=
  l.foldl (fun acc c => acc * 10 + (c.toNat - 48)) 0

/-- The binding list produced by a fully matching validation walk: each
client binding stamped with the id of its server entry. -/
def Channel.stampAux : List Binding → List Channel.PgServerChange → Nat → List Binding
  | [], _, _ => []
  | b :: bs, scs, k =>
      { b with id := (scs.get? k).map (fun sc => sc.id) } :: Channel.stampAux bs scs (k + 1)

/-- An empty binding filter. -/
def noFilter : BindingFilter :=
  { event := none, schema := none, table := none, filter := none }

/-- A quiescent push used as concrete input. -/
def basePush : Push :=
  { event := "broadcast"
    payload := []
    timeout := 10000
    receivedResp := none
    timeoutTimer := false
    recHooks := []
    sent := false
    ref := none
    refEvent := none }

/-- A push on which a terminal timeout status has been recorded. -/
def timedOutPush : Push :=
  { basePush with receivedResp := some { status := "timeout", response := [] } }

/-- A channel in the joined state with a join ref, used as concrete input. -/
def joinedChannel : Channel :=
  { state := .joined
    joinedOnce := true
    bindings := [("phx_close",
      [{ type := "phx_close", filter := noFilter, callback := .onCloseHook, id := none }])]
    joinPush := { basePush with event := "phx_join", ref := some "1", sent := true }
    pushBuffer := [] }

/-- A channel that has never sent a join (join ref null). -/
def unjoinedChannel : Channel :=
  { state := .closed
    joinedOnce := false
    bindings := []
    joinPush := { basePush with event := "phx_join" }
    pushBuffer := [] }

/-- A second never-joined channel on another topic, distinguishable from the
first by its push buffer. -/
def unjoinedChannelB : Channel :=
  { unjoinedChannel with pushBuffer := [basePush] }

/-- A channel holding one postgres_changes binding, used as concrete input
for the handshake. -/
def pgChannel : Channel :=
  { state := .joining
    joinedOnce := true
    bindings := [("postgres_changes",
      [{ type := "postgres_changes"
         filter := { event := some "INSERT", schema := some "public"
                     table := some "users", filter := some "id=eq.1" }
         callback := .user 0, id := none }])]
    joinPush := { basePush with event := "phx_join", ref := some "1", sent := true }
    pushBuffer := [] }

/-- A server postgres_changes entry matching the binding of pgChannel. -/
def pgServerOk : Channel.PgServerChange :=
  { id := "srv-1", event := some "INSERT", schema := some "public"
    table := some "users", filter := some "id=eq.1" }

/-- A server postgres_changes entry that does not match that binding. -/
def pgServerBad : Channel.PgServerChange :=
  { pgServerOk with table := some "orders" }

/-! ## Theorems -/

theorem getUint8_cons_zero (x : Nat) (t : List Nat) :
    getUint8 (x :: t) 0 = .ok x := by
  simp [getUint8]

theorem getUint8_cons_succ (x : Nat) (t : List Nat) (i : Nat) :
    getUint8 (x :: t) (i + 1) = getUint8 t i := by
  simp only [getUint8, List.length_cons, Nat.add_lt_add_iff_right]
  split <;> simp_all

/-- C8: on a Push whose recorded terminal status is timeout, send returns
immediately: no fresh ref is taken, no reply binding is registered, no
frame is published, and every field of the push is unchanged. -/
theorem C8_send_after_timeout_is_noop (p : Push) (freshRef topic : String)
    (joinRef : Option String) (h : p.hasReceived "timeout" = true) :
    Push.send p freshRef topic joinRef =
      { push := p, refTaken := false, registered := none, frame := none } := by
  unfold Push.send
  simp [h]

/-- C8 witness: the no-op at a concrete timed-out push. -/
theorem C8_witness :
    timedOutPush.hasReceived "timeout" = true ∧
      Push.send timedOutPush "7" "realtime:t" none =
        { push := timedOutPush, refTaken := false, registered := none, frame := none } :=
  ⟨by decide, C8_send_after_timeout_is_noop timedOutPush "7" "realtime:t" none (by decide)⟩

/-- C4: the push buffer never exceeds MAX_PUSH_BUFFER_SIZE, and enqueueing
into a buffer already at capacity removes and destroys the oldest push,
appends the new one, and leaves the length at MAX_PUSH_BUFFER_SIZE. -/
theorem C4_push_buffer_bounded (buf : List Push) (p : Push)
    (h : buf.length ≤ MAX_PUSH_BUFFER_SIZE) :
    (Channel.addToPushBuffer buf p).buffer.length ≤ MAX_PUSH_BUFFER_SIZE ∧
      (buf.length = MAX_PUSH_BUFFER_SIZE →
        (Channel.addToPushBuffer buf p).destroyed = buf.head? ∧
          (Channel.addToPushBuffer buf p).buffer = buf.tail ++ [p] ∧
          (Channel.addToPushBuffer buf p).buffer.length = MAX_PUSH_BUFFER_SIZE) := by
  have hM : MAX_PUSH_BUFFER_SIZE = 100 := rfl
  unfold Channel.addToPushBuffer
  by_cases hfull : buf.length ≥ MAX_PUSH_BUFFER_SIZE
  · have hlen : buf.length = MAX_PUSH_BUFFER_SIZE := le_antisymm h hfull
    rw [if_pos hfull]
    refine ⟨?_, fun _ => ⟨rfl, rfl, ?_⟩⟩ <;>
      · simp only [List.length_append, List.length_tail, List.length_cons,
          List.length_nil]
        omega
  · have hlt : buf.length < MAX_PUSH_BUFFER_SIZE := lt_of_not_ge hfull
    rw [if_neg hfull]
    refine ⟨?_, fun hc => absurd hc (by omega)⟩
    simp only [List.length_append, List.length_cons, List.length_nil]
    omega

/-- C4 witness: a buffer of exactly 100 pushes evicts its oldest entry. -/
theorem C4_witness :
    (List.replicate 100 basePush).length ≤ MAX_PUSH_BUFFER_SIZE ∧
      (List.replicate 100 basePush).length = MAX_PUSH_BUFFER_SIZE ∧
      (Channel.addToPushBuffer (List.replicate 100 basePush) timedOutPush).destroyed
          = (List.replicate 100 basePush).head? ∧
      (Channel.addToPushBuffer (List.replicate 100 basePush) timedOutPush).buffer.length
          = MAX_PUSH_BUFFER_SIZE := by
  have hle : (List.replicate 100 basePush).length ≤ MAX_PUSH_BUFFER_SIZE := by
    simp [MAX_PUSH_BUFFER_SIZE]
  have heq : (List.replicate 100 basePush).length = MAX_PUSH_BUFFER_SIZE := by
    simp [MAX_PUSH_BUFFER_SIZE]
  have h := C4_push_buffer_bounded (List.replicate 100 basePush) timedOutPush hle
  exact ⟨hle, heq, (h.2 heq).1, (h.2 heq).2.2⟩

/-- C7: subscribe acts only while the channel state is closed; in any other
state it returns the channel with state, joinedOnce, bindings, join push and
push buffer all unchanged, so a second concurrent join attempt can never be
started. -/
theorem C7_subscribe_noop_unless_closed (ch : Channel) (cbTag : Nat)
    (freshRef : String) (h : ch.state ≠ .closed) :
    Channel.subscribe ch cbTag freshRef = ch := by
  unfold Channel.subscribe
  simp [h]

/-- C7 witness: subscribing a joined channel changes nothing. -/
theorem C7_witness :
    joinedChannel.state ≠ .closed ∧
      Channel.subscribe joinedChannel 9 "42" = joinedChannel :=
  ⟨by decide, C7_subscribe_noop_unless_closed joinedChannel 9 "42" (by decide)⟩

/-- C10: the client removes channels by join-ref equality, not object
identity: any channel whose join ref equals the removed channel's join ref
is no longer in the channel set. -/
theorem C10_remove_by_join_ref (channels : List Channel) (c d : Channel)
    (h : d.joinRef = c.joinRef) :
    d ∉ RealtimeClient.remove channels c := by
  unfold RealtimeClient.remove
  intro hmem
  have := (List.mem_filter.mp hmem).2
  simp [h] at this

/-- C10 witness: removing one never-joined channel (join ref null) also
removes a distinct never-joined channel from the set. -/
theorem C10_witness :
    unjoinedChannelB ≠ unjoinedChannel ∧
      unjoinedChannelB.joinRef = unjoinedChannel.joinRef ∧
      unjoinedChannelB ∉
        RealtimeClient.remove [unjoinedChannel, unjoinedChannelB] unjoinedChannel :=
  ⟨by decide, by decide,
    C10_remove_by_join_ref [unjoinedChannel, unjoinedChannelB] unjoinedChannel
      unjoinedChannelB (by decide)⟩

/-- C2: an inbound lifecycle message (phx_close, phx_error, phx_leave,
phx_join) that carries a ref different from the channel's current join ref
is dropped by _trigger: no binding callback fires and the channel state is
unchanged. -/
theorem C2_trigger_drops_stale_lifecycle (ch : Channel) (type : String)
    (payload : Option TriggerPayload) (ref : Option String)
    (h1 : strTruthy ref = true)
    (h2 : Channel.channelEvents.contains (jsToLower type) = true)
    (h3 : ref ≠ ch.joinRef) :
    Channel.trigger ch type payload ref = { channel := ch, fired := [] } := by
  unfold Channel.trigger
  have hbeq : (ref == ch.joinRef) = false := by
    simp only [beq_eq_false_iff_ne, ne_eq]
    exact h3
  have h2m : jsToLower type ∈ Channel.channelEvents := by
    simpa using h2
  simp [h1, h2m, hbeq]

/-- C2 witness: a phx_close carrying a stale ref leaves a joined channel
(whose close hook would otherwise fire) untouched. -/
theorem C2_witness :
    strTruthy (some "2") = true ∧
      Channel.channelEvents.contains (jsToLower "phx_close") = true ∧
      some "2" ≠ joinedChannel.joinRef ∧
      Channel.trigger joinedChannel "phx_close" none (some "2") =
        { channel := joinedChannel, fired := [] } :=
  ⟨by decide, by decide, by decide,
    C2_trigger_drops_stale_lifecycle joinedChannel "phx_close" none (some "2")
      (by decide) (by decide) (by decide)⟩

/-- C3: evaluation of the heartbeat tick at the failing input: with a
heartbeat still pending on a connected client, the socket is closed with
the normal-close code 1000 and the ref is cleared, but the reason string
the code passes is the misspelled hearbeat timeout, not the heartbeat
timeout required by the specification and by the repository's own test
suite. -/
theorem C3_heartbeat_timeout_divergence :
    RealtimeClient.sendHeartbeat
        { connected := true, pendingHeartbeatRef := some "5", ref := 5 } =
      { client := { connected := true, pendingHeartbeatRef := none, ref := 5 }
        closeCall := some (WS_CLOSE_NORMAL, "hearbeat timeout")
        pushed := none } ∧
      WS_CLOSE_NORMAL = 1000 ∧
      ("hearbeat timeout" : String) ≠ "heartbeat timeout" := by
  refine ⟨by decide, rfl, by decide⟩

/-- C1 counterexample: encode followed by decode is not the identity on a
well-formed binary push frame.  Encoding join_ref "1", ref "2", topic "t",
event "e" (code units 49, 50, 116, 101) with an empty payload and decoding
the result does not reconstruct the frame: the encoder writes a ref length
byte that the push decoder does not expect, so the decoded join_ref is the
event-length byte, not "1". -/
theorem C1_counterexample :
    Serializer.binaryDecode (Serializer.binaryEncode [49] [50] [116] [101] []) ≠
        Except.ok (some { join_ref := some [49], ref := none, topic := [116],
                          event := .raw [101], payload := .raw [] }) ∧
      Serializer.binaryDecode (Serializer.binaryEncode [49] [50] [116] [101] []) =
        Except.ok (some { join_ref := some [1], ref := none, topic := [49],
                          event := .raw [50], payload := .raw [116, 101] }) := by
  constructor
  · decide
  · decide

/-- C1 (amended): encode followed by decode is the identity on every frame
whose payload is not a byte buffer: the encoder emits the JSON 5-tuple
join_ref, ref, topic, event, payload and the decoder reconstructs exactly
those fields.  For a frame whose payload is a byte buffer the encoder emits
a push-kind frame whose header carries four length bytes, including a ref
length byte, and the ref bytes themselves, so (by the counterexample) the
push decoder, whose wire layout has no ref length byte, does not
reconstruct the frame. -/
theorem C1_json_round_trip (jr r : Option String) (topic event : String)
    (p : JsonValue) (join_ref ref tpc ev payload : List Nat) :
    Serializer.decodeText (Serializer.encodeText jr r topic event p) =
        Except.ok (msgToDecoded jr r topic event p) ∧
      Serializer.binaryEncode join_ref ref tpc ev payload =
        [0, join_ref.length % 256, ref.length % 256, tpc.length % 256,
          ev.length % 256]
          ++ join_ref.map (· % 256) ++ ref.map (· % 256)
          ++ tpc.map (· % 256) ++ ev.map (· % 256) ++ payload := by
  exact ⟨rfl, rfl⟩

/-- C6 counterexample: decoding does not fail on the inputs the claim says
it must reject.  A binary frame with unknown kind byte 3 decodes to no
message with no error raised (there is no BadFrame error in the code), and
a push frame whose declared lengths would read far past the end of the
buffer still decodes to a frame, the out-of-range slices being clamped to
empty. -/
theorem C6_counterexample :
    Serializer.binaryDecode [3, 1, 1, 1, 1, 49] = Except.ok none ∧
      Serializer.binaryDecode [0, 200, 200, 200] =
        Except.ok (some { join_ref := some [], ref := none, topic := [],
                          event := .raw [], payload := .raw [] }) := by
  constructor
  · decide
  · decide

theorem getUint8_of_lt {buf : List Nat} {i : Nat} (h : i < buf.length) :
    getUint8 buf i = .ok buf[i] := by
  unfold getUint8
  rw [dif_pos h]

theorem except_ok_bind {α β ε : Type} (a : α) (f : α → Except ε β) :
    (Except.ok a >>= f) = f a := rfl

theorem decodePush_ok (buf : List Nat) (h1 : 1 < buf.length)
    (h2 : 2 < buf.length) (h3 : 3 < buf.length) :
    Serializer.decodePush buf =
      .ok { join_ref := some (jsSlice buf 4 (4 + buf[1]))
            ref := none
            topic := jsSlice buf (4 + buf[1]) (4 + buf[1] + buf[2])
            event := .raw (jsSlice buf (4 + buf[1] + buf[2])
              (4 + buf[1] + buf[2] + buf[3]))
            payload := .raw (jsSlice buf (4 + buf[1] + buf[2] + buf[3])
              buf.length) } := by
  unfold Serializer.decodePush
  rw [getUint8_of_lt h1, getUint8_of_lt h2, getUint8_of_lt h3]
  rfl

/-- C6 (amended): the decoder has no BadFrame failure.  A binary frame
whose kind byte is not one of 0, 1, 2 decodes to no message at all, with no
error raised (the callback receives undefined); a push frame whose declared
length fields would read past the end of the buffer still decodes to a
frame, the slices being silently clamped; and a text frame that is not an
array (here a JSON object, which the decoder of this source does not
handle) raises a TypeError from the array destructuring rather than any
BadFrame error. -/
theorem C6_decode_failure_modes (b : Nat) (t : List Nat)
    (h1 : b ≠ 0) (h2 : b ≠ 1) (h3 : b ≠ 2) :
    Serializer.binaryDecode (b :: t) = .ok none ∧
      (∀ a c d rest, ∃ m,
        Serializer.binaryDecode ((0 : Nat) :: a :: c :: d :: rest) =
          .ok (some m)) ∧
      Serializer.decodeText (.obj []) = .error .typeError := by
  refine ⟨?_, ?_, rfl⟩
  · unfold Serializer.binaryDecode
    rw [getUint8_of_lt (show 0 < (b :: t).length by simp)]
    simp only [List.getElem_cons_zero, except_ok_bind]
    simp [Serializer.KINDS_push, Serializer.KINDS_reply, Serializer.KINDS_broadcast,
      h1, h2, h3]
  · intro a c d rest
    have hp := decodePush_ok ((0 : Nat) :: a :: c :: d :: rest)
      (by simp) (by simp) (by simp)
    refine ⟨{ join_ref := some (jsSlice ((0 : Nat) :: a :: c :: d :: rest) 4 (4 + a))
              ref := none
              topic := jsSlice ((0 : Nat) :: a :: c :: d :: rest) (4 + a) (4 + a + c)
              event := .raw (jsSlice ((0 : Nat) :: a :: c :: d :: rest)
                (4 + a + c) (4 + a + c + d))
              payload := .raw (jsSlice ((0 : Nat) :: a :: c :: d :: rest)
                (4 + a + c + d) ((0 : Nat) :: a :: c :: d :: rest).length) }, ?_⟩
    unfold Serializer.binaryDecode
    rw [getUint8_of_lt (show 0 < ((0 : Nat) :: a :: c :: d :: rest).length by simp)]
    simp only [List.getElem_cons_zero, except_ok_bind]
    rw [if_pos (show (0 : Nat) = Serializer.KINDS_push from rfl), hp]
    rfl

/-- C6 witness: the amended behaviour at the concrete bad frames of the
counterexample. -/
theorem C6_witness :
    (3 : Nat) ≠ 0 ∧ (3 : Nat) ≠ 1 ∧ (3 : Nat) ≠ 2 ∧
      Serializer.binaryDecode [3, 1, 1, 1, 1, 49] = .ok none ∧
      Serializer.decodeText (.obj []) = .error .typeError := by
  have h := C6_decode_failure_modes 3 [1, 1, 1, 1, 49]
    (by decide) (by decide) (by decide)
  exact ⟨by decide, by decide, by decide, h.1, h.2.2⟩

theorem digitChar_toNat (d : Nat) (h : d < 10) :
    (Nat.digitChar d).toNat = 48 + d := by
  revert d
  decide

theorem charsOf_lt (n : Nat) (h : n < 10) : charsOf n = [Nat.digitChar n] := by
  rw [charsOf, dif_pos h]

theorem charsOf_ge (n : Nat) (h : ¬n < 10) :
    charsOf n = charsOf (n / 10) ++ [Nat.digitChar (n % 10)] := by
  rw [charsOf, dif_neg h]

theorem readNat_append_digit (l : List Char) (c : Char) :
    readNat (l ++ [c]) = readNat l * 10 + (c.toNat - 48) := by
  unfold readNat
  rw [List.foldl_append]
  rfl

theorem readNat_charsOf (n : Nat) : readNat (charsOf n) = n := by
  induction n using Nat.strong_induction_on with
  | _ n ih =>
    by_cases h : n < 10
    · rw [charsOf_lt n h]
      have hd := digitChar_toNat n h
      unfold readNat
      simp only [List.foldl_cons, List.foldl_nil, hd]
      omega
    · rw [charsOf_ge n h, readNat_append_digit,
        ih (n / 10) (Nat.div_lt_self (by omega) (by omega)),
        digitChar_toNat (n % 10) (Nat.mod_lt n (by omega))]
      omega

theorem toDigitsCore_eq_charsOf (f : Nat) : ∀ n l, n < 10 ^ f → 0 < f →
    Nat.toDigitsCore 10 f n l = charsOf n ++ l := by
  induction f with
  | zero => intro n l _ h0; omega
  | succ f ih =>
    intro n l hn _
    by_cases hz : n / 10 = 0
    · have hn10 : n < 10 := by omega
      unfold Nat.toDigitsCore
      simp only [hz, if_pos]
      rw [charsOf_lt n hn10, Nat.mod_eq_of_lt hn10]
      rfl
    · have hf : 0 < f := by
        rcases Nat.eq_zero_or_pos f with h0 | h0
        · subst h0
          norm_num at hn
          omega
        · exact h0
      have hdiv : n / 10 < 10 ^ f := by
        have hmul : n < 10 ^ f * 10 := by
          rw [← pow_succ]
          exact hn
        exact (Nat.div_lt_iff_lt_mul (by omega)).mpr hmul
      unfold Nat.toDigitsCore
      simp only [hz, if_neg]
      rw [ih (n / 10) (Nat.digitChar (n % 10) :: l) hdiv hf,
        charsOf_ge n (by omega)]
      simp

theorem repr_eq_charsOf (n : Nat) : Nat.repr n = (charsOf n).asString := by
  have hlt : n < 10 ^ (n + 1) := by
    calc n < 10 ^ n := Nat.lt_pow_self (by omega) n
      _ ≤ 10 ^ (n + 1) := Nat.pow_le_pow_right (by omega) (Nat.le_succ n)
  unfold Nat.repr Nat.toDigits
  rw [toDigitsCore_eq_charsOf (n + 1) n [] hlt (by omega), List.append_nil]

theorem nat_repr_injective (m n : Nat) (h : Nat.repr m = Nat.repr n) : m = n := by
  rw [repr_eq_charsOf, repr_eq_charsOf] at h
  have h2 : charsOf m = charsOf n := by
    have hd := congrArg String.data h
    simpa [List.asString] using hd
  calc m = readNat (charsOf m) := (readNat_charsOf m).symm
    _ = readNat (charsOf n) := by rw [h2]
    _ = n := readNat_charsOf n

/-- C9: the ref counter increments by exactly one on every call and is
returned as its decimal string; at the point where adding one no longer
changes the value (2 to the 53, the boundary of exact integer doubles) it
wraps back to 0; and before the wrap point two different counter states
never return the same ref string. -/
theorem C9_make_ref_counter (r : Nat) :
    (r < 2 ^ 53 → RealtimeClient.makeRef r = (r + 1, toString (r + 1))) ∧
      RealtimeClient.makeRef (2 ^ 53) = (0, "0") ∧
      (∀ s : Nat, r < 2 ^ 53 → s < 2 ^ 53 → r ≠ s →
        (RealtimeClient.makeRef r).2 ≠ (RealtimeClient.makeRef s).2) := by
  have hmk : ∀ u : Nat, u < 2 ^ 53 →
      RealtimeClient.makeRef u = (u + 1, toString (u + 1)) := by
    intro u hu
    unfold RealtimeClient.makeRef jsAddOne
    rw [if_pos hu, if_neg (by omega)]
  refine ⟨hmk r, by decide, ?_⟩
  · intro s hr hs hne
    rw [hmk r hr, hmk s hs]
    intro hstr
    have : r + 1 = s + 1 := nat_repr_injective (r + 1) (s + 1) hstr
    omega

/-- C9 witness: concrete increments, the wrap at 2 to the 53, and
distinctness of two pre-wrap refs. -/
theorem C9_witness :
    RealtimeClient.makeRef 3 = (4, "4") ∧
      RealtimeClient.makeRef (2 ^ 53) = (0, "0") ∧
      (RealtimeClient.makeRef 3).2 ≠ (RealtimeClient.makeRef 5).2 := by
  have h3 := C9_make_ref_counter 3
  exact ⟨(h3.1 (by decide)).trans (by decide), h3.2.1,
    h3.2.2 5 (by decide) (by decide) (by decide)⟩

theorem stampAux_cons (b : Binding) (bs : List Binding)
    (scs : List Channel.PgServerChange) (k : Nat) :
    Channel.stampAux (b :: bs) scs k =
      { b with id := (scs.get? k).map (fun sc => sc.id) } ::
        Channel.stampAux bs scs (k + 1) := rfl

theorem validateAux_ok_of_matches :
    ∀ (cbs : List Binding) (scs : List Channel.PgServerChange) (k : Nat),
      (∀ i (h : i < cbs.length), Channel.isMatching cbs[i] (scs.get? (k + i)) = true) →
      Channel.validateAux cbs scs k = .ok (Channel.stampAux cbs scs k)
  | [], _, _, _ => rfl
  | b :: bs, scs, k, hyp => by
    have h0 : Channel.isMatching b (scs.get? k) = true := by
      have hh := hyp 0 (by simp)
      simpa using hh
    cases hsc : scs.get? k with
    | none =>
        rw [hsc] at h0
        simp [Channel.isMatching] at h0
    | some sc =>
        have hm : Channel.isMatchingPresent b sc = true := by
          rw [hsc] at h0
          simpa [Channel.isMatching] using h0
        have ih := validateAux_ok_of_matches bs scs (k + 1) (by
          intro i h
          have hh := hyp (i + 1) (by simpa using Nat.succ_lt_succ h)
          have hk : k + (i + 1) = k + 1 + i := by omega
          simpa [hk] using hh)
        simp only [Channel.validateAux, hsc, if_pos hm, ih, Except.map]
        rw [stampAux_cons, hsc]
        rfl

theorem validateAux_ok_imp_matches :
    ∀ (cbs : List Binding) (scs : List Channel.PgServerChange) (k : Nat)
      (res : List Binding), Channel.validateAux cbs scs k = .ok res →
      ∀ i (h : i < cbs.length), Channel.isMatching cbs[i] (scs.get? (k + i)) = true
  | [], _, _, _, _, i, h => absurd h (by simp)
  | b :: bs, scs, k, res, hok, i, h => by
    cases hsc : scs.get? k with
    | none =>
        simp only [Channel.validateAux, hsc] at hok
        exact Except.noConfusion hok
    | some sc =>
        simp only [Channel.validateAux, hsc] at hok
        by_cases hm : Channel.isMatchingPresent b sc = true
        · rw [if_pos hm] at hok
          have hrest : ∃ res2, Channel.validateAux bs scs (k + 1) = .ok res2 := by
            cases hv : Channel.validateAux bs scs (k + 1) with
            | ok r2 => exact ⟨r2, rfl⟩
            | error e =>
                rw [hv] at hok
                exact Except.noConfusion hok
          rcases hrest with ⟨res2, hv2⟩
          cases i with
          | zero =>
              simp only [List.getElem_cons_zero, Nat.add_zero, hsc,
                Channel.isMatching]
              exact hm
          | succ j =>
              have hj : j < bs.length := by simpa using h
              have hrec := validateAux_ok_imp_matches bs scs (k + 1) res2 hv2 j hj
              have hk : k + (j + 1) = k + 1 + j := by omega
              simpa [hk] using hrec
        · rw [if_neg hm] at hok
          exact Except.noConfusion hok

theorem validateAux_error_or_ok :
    ∀ (cbs : List Binding) (scs : List Channel.PgServerChange) (k : Nat),
      Channel.validateAux cbs scs k = .error Channel.mismatchMsg ∨
        ∃ res, Channel.validateAux cbs scs k = .ok res
  | [], _, _ => .inr ⟨[], rfl⟩
  | b :: bs, scs, k => by
    cases hsc : scs.get? k with
    | none =>
        left
        simp only [Channel.validateAux, hsc]
    | some sc =>
        by_cases hm : Channel.isMatchingPresent b sc = true
        · rcases validateAux_error_or_ok bs scs (k + 1) with herr | ⟨res, hok⟩
          · left
            simp only [Channel.validateAux, hsc, if_pos hm, herr, Except.map]
          · right
            refine ⟨{ b with id := some sc.id } :: res, ?_⟩
            simp only [Channel.validateAux, hsc, if_pos hm, hok, Except.map]
        · left
          simp only [Channel.validateAux, hsc, if_neg hm]

/-- C5: on an ok join reply carrying postgres_changes, the channel walks its
postgres_changes bindings and the server list in parallel by index.  When
every index matches on event, schema, table and filter, each binding is
stamped with the server's id and the subscribe callback gets SUBSCRIBED;
when any index mismatches (a missing server entry never matching), the
channel is unsubscribed, its state becomes errored and the callback gets
CHANNEL_ERROR with the explanatory mismatch error. -/
theorem C5_postgres_handshake (ch : Channel) (scs : List Channel.PgServerChange)
    (cbs : List Binding)
    (hcb : bindingsGet ch.bindings "postgres_changes" = some cbs) :
    ((∀ i (h : i < cbs.length), Channel.isMatching cbs[i] (scs.get? i) = true) →
      Channel.handleJoinOk ch (some scs) =
        { channel := { ch with bindings := (bindingsSet ch.bindings
            "postgres_changes" (Channel.stampAux cbs scs 0)) }
          callback := some (.SUBSCRIBED, none)
          unsubscribed := false }) ∧
      ((∃ i, ∃ _h : i < cbs.length, Channel.isMatching cbs[i] (scs.get? i) = false) →
        Channel.handleJoinOk ch (some scs) =
          { channel := { ch with state := .errored }
            callback := some (.CHANNEL_ERROR, some Channel.mismatchMsg)
            unsubscribed := true }) := by
  constructor
  · intro hmatch
    cases cbs with
    | nil =>
        simp only [Channel.handleJoinOk, Channel.validatePostgresChanges, hcb]
        rfl
    | cons b bs =>
        have hv := validateAux_ok_of_matches (b :: bs) scs 0 (by
          intro i h
          have hh := hmatch i h
          simpa using hh)
        simp only [Channel.handleJoinOk, Channel.validatePostgresChanges, hcb, hv]
  · rintro ⟨i, h, hbad⟩
    cases cbs with
    | nil => exact absurd h (by simp)
    | cons b bs =>
        have hno : ∀ res, Channel.validateAux (b :: bs) scs 0 ≠ .ok res := by
          intro res hok
          have hall := validateAux_ok_imp_matches (b :: bs) scs 0 res hok i h
          rw [Nat.zero_add] at hall
          rw [hall] at hbad
          cases hbad
        rcases validateAux_error_or_ok (b :: bs) scs 0 with herr | ⟨res, hok⟩
        · simp only [Channel.handleJoinOk, Channel.validatePostgresChanges, hcb,
            herr]
        · exact absurd hok (hno res)

/-- C5 witness: the concrete handshake of one INSERT binding against a
matching and a mismatching server list. -/
theorem C5_witness :
    Channel.handleJoinOk pgChannel (some [pgServerOk]) =
        { channel := { pgChannel with bindings := (bindingsSet pgChannel.bindings
            "postgres_changes" (Channel.stampAux
              ((bindingsGet pgChannel.bindings "postgres_changes").getD [])
              [pgServerOk] 0)) }
          callback := some (.SUBSCRIBED, none)
          unsubscribed := false } ∧
      Channel.handleJoinOk pgChannel (some [pgServerBad]) =
        { channel := { pgChannel with state := .errored }
          callback := some (.CHANNEL_ERROR, some Channel.mismatchMsg)
          unsubscribed := true } := by
  have h1 := C5_postgres_handshake pgChannel [pgServerOk]
    ((bindingsGet pgChannel.bindings "postgres_changes").getD []) (by rfl)
  have h2 := C5_postgres_handshake pgChannel [pgServerBad]
    ((bindingsGet pgChannel.bindings "postgres_changes").getD []) (by rfl)
  exact ⟨h1.1 (by decide), h2.2 ⟨0, by decide, by decide⟩⟩
